import Mathlib

/-!
Shallow embedding of the edge-cache subsystem of `tinloof/astro-sanity-live`:
the query cache with stale-while-revalidate semantics and tag-based
invalidation (`cache.ts`, given as `src/unnamed/part_006`, second document —
the one the claims' line numbers refer to), the purge HTTP handler
(`src/packages/sanity-astro/src/live/purge-handler.ts`, second document) and
the loader (`src/packages/sanity-astro/src/loader.ts`).

Modelling conventions:
* JavaScript numbers that can be `NaN` are modelled by `JsNum`
  (`nan` or an integer); comparisons involving `nan` are `false`,
  addition with `nan` yields `nan`, exactly as in JS.
* The value of the `x-cache-time` header is a date string in the source;
  only its parse result `new Date(s).getTime()` is ever used, so the model
  stores that parse result directly: `none` = header absent (the code treats
  an empty string the same way, returning age 0), `some .nan` = present but
  unparsable, `some (.int t)` = parsed epoch milliseconds.
* Asynchronous background work (`ctx.waitUntil(...)`) is modelled by
  returning a list of `BgTask` values from the foreground call; `runBgTask`
  gives each task's effect on the store and the number of `fetchFn`
  invocations it performs.
* A cache backend whose operations throw is modelled by the `thr : Bool`
  flag on each store operation (`Except Unit` results).
* `fetchFn` is a closure in the source; the model passes its (deterministic)
  outcome `fetchRes : Except Unit (α × Option (List String))` — `.error` is
  an upstream fetch that rejects.
-/

/-- A JavaScript number that may be `NaN`. -/
inductive JsNum where
  | nan
  | int (n : Int)
deriving DecidableEq, Repr

/-- JS `a <= b`: false whenever either side is `NaN`. -/
def jsLe : JsNum → JsNum → Bool
  | .int a, .int b => decide (a ≤ b)
  | _, _ => false

/-- JS `a > b`: false whenever either side is `NaN`. -/
def jsGt : JsNum → JsNum → Bool
  | .int a, .int b => decide (b < a)
  | _, _ => false

/-- JS `a + b`: `NaN` is absorbing. -/
def jsAdd : JsNum → JsNum → JsNum
  | .int a, .int b => .int (a + b)
  | _, _ => .nan

/-- JS falsiness of a nullable string: `null`/`undefined` and `""` are falsy. -/
def jsFalsyStr : Option String → Bool
  | none => true
  | some s => s == ""

/-- JS truthiness of a nullable string (`if (x)` on a `string | undefined`). -/
def jsTruthyOptStr (o : Option String) : Bool := !(jsFalsyStr o)

/-- First-match association-list lookup (JS object property read; the
directive/index objects built by this code never carry duplicate keys). -/
def lookupA {β : Type} : List (String × β) → String → Option β
  | [], _ => none
  | (k', v) :: rest, k => if k' = k then some v else lookupA rest k

/-- JS object property assignment: replace the value if the key exists
(keeping insertion order), otherwise append at the end. -/
def setAssoc {β : Type} : List (String × β) → String → β → List (String × β)
  | [], k, v => [(k, v)]
  | (k', v') :: rest, k, v =>
      if k' = k then (k, v) :: rest else (k', v') :: setAssoc rest k v

/-- JS `delete obj[k]` (modelled on association lists as removing every
pair with that key). -/
def eraseA {β : Type} (l : List (String × β)) (k : String) : List (String × β) :=
  l.filter (fun kv => kv.1 ≠ k)

/-- Source `String.prototype.split(sep)` on character lists. `""` splits to `[""]`. -/
def splitOnChar (sep : Char) : List Char → List (List Char)
  | [] => [[]]
  | c :: rest =>
      let r := splitOnChar sep rest
      if c = sep then [] :: r
      else
        match r with
        | [] => [[c]]
        | g :: gs => (c :: g) :: gs

/-- Source `String.prototype.trim()`. -/
def trimChars (l : List Char) : List Char :=
  ((l.dropWhile Char.isWhitespace).reverse.dropWhile Char.isWhitespace).reverse

/-- JS `parseInt(s, 10)`: skip leading whitespace, optional sign, then the
longest digit run; `NaN` if there is no digit. -/
def jsParseInt (chars : List Char) : JsNum :=
  let t := chars.dropWhile Char.isWhitespace
  let signAndRest : Int × List Char :=
    match t with
    | c :: cs => if c = '-' then (-1, cs) else if c = '+' then (1, cs) else (1, t)
    | [] => (1, t)
  let digits := signAndRest.2.takeWhile Char.isDigit
  if digits.isEmpty then .nan
  else .int (signAndRest.1 * digits.foldl (fun n c => n * 10 + ((c.toNat : Int) - 48)) 0)

/-- The value of one cache-control directive: a number (possibly `NaN`) for
`key=value` parts, or the boolean `true` for bare keys. -/
inductive DirVal where
  | num (j : JsNum)
  | flag
deriving DecidableEq, Repr

/-- Source `parseCacheControl` from cache.ts: split the header on `,`, trim each
part, split it on `=`; a part with a value maps its lowercased key to
`parseInt(value, 10)`, a bare part maps it to `true`. -/
def parseCacheControl (header : Option String) : List (String × DirVal) :=
  if jsFalsyStr header then []
  else
    match header with
    | none => []
    | some h =>
        (splitOnChar ',' h.toList).foldl
          (fun dirs part =>
            match splitOnChar '=' (trimChars part) with
            | [] => dirs
            | [k] => setAssoc dirs (String.mk (k.map Char.toLower)) .flag
            | k :: v :: _ =>
                setAssoc dirs (String.mk (k.map Char.toLower)) (.num (jsParseInt v)))
          []

/-- The JSON body of a stored query-cache response: `{ data, tags }`. -/
structure CacheEntryV (α : Type) where
  data : α
  tags : Option (List String)
deriving DecidableEq, Repr

/-- A response stored in the cache, reduced to the fields the code reads:
its JSON body and the `x-cache-control` / `x-cache-time` headers
(the latter as the parse result of the stored date string, see above). -/
structure StoredResponse (α : Type) where
  body : CacheEntryV α
  xCacheControl : Option String
  xCacheTime : Option JsNum
deriving DecidableEq, Repr

/-- Source `getCacheAge`: 0 when the `x-cache-time` header is absent (or empty),
otherwise `Math.floor((now - cachedAt) / 1000)` — `NaN` propagates from an
unparsable date. `now` is epoch milliseconds. -/
def getCacheAge {α : Type} (now : Int) (r : StoredResponse α) : JsNum :=
  match r.xCacheTime with
  | none => .int 0
  | some .nan => .nan
  | some (.int t) => .int (Int.fdiv (now - t) 1000)

/-- Source `isFresh`: the stored response has a numeric `max-age` directive and
`age <= maxAge`. -/
def isFresh {α : Type} (now : Int) (r : StoredResponse α) : Bool :=
  if jsFalsyStr r.xCacheControl then false
  else
    match lookupA (parseCacheControl r.xCacheControl) "max-age" with
    | some (.num m) => jsLe (getCacheAge now r) m
    | _ => false

/-- Source `isStaleButValid`: numeric `max-age` and `stale-while-revalidate`
directives with `age > maxAge && age <= maxAge + swr`. -/
def isStaleButValid {α : Type} (now : Int) (r : StoredResponse α) : Bool :=
  if jsFalsyStr r.xCacheControl then false
  else
    match lookupA (parseCacheControl r.xCacheControl) "max-age",
          lookupA (parseCacheControl r.xCacheControl) "stale-while-revalidate" with
    | some (.num m), some (.num s) =>
        jsGt (getCacheAge now r) m && jsLe (getCacheAge now r) (jsAdd m s)
    | _, _ => false

/-! ### Constants (`constants.ts`) -/

def CACHE_INTERNAL_URL : String := "https://cache.internal"

def DEFAULT_CACHE_MAX_AGE : Int := 60 * 60 * 24

def DEFAULT_CACHE_SWR : Int := 60 * 60 * 24 * 7

/-- Source `DEFAULT_CACHE_KEY_PREFIX` in the source (shortened name). -/
def DEFAULT_CACHE_KEY_PREF : String := "sanity"

def DEFAULT_PAGE_CACHE_MAX_AGE : Int := 60 * 60

def DEFAULT_PAGE_CACHE_SWR : Int := 60 * 60 * 24

def DEFAULT_BROWSER_CACHE_MAX_AGE : Int := 60

def VISUAL_EDITING_ENABLED : String := "sanity-visual-editing"

def LAST_LIVE_EVENT_ID_COOKIE : String := "sanity-live-event-id"

def NO_CACHE_ROUTE_LIST : List String := ["/api/", "/cms/", "/_astro/"]

/-- URL of the reserved query-tag-index blob (`TAG_INDEX_KEY`). -/
def TAG_INDEX_URL : String := "https://cache.internal/__tag_index__"

/-- URL of the reserved page-index blob (`PAGE_INDEX_REQUEST`). -/
def PAGE_INDEX_URL : String := "https://cache.internal/__page_index__"

/-! ### Cache keys (`createCacheKey`)

`createCacheKey` builds `https://cache.internal/<keyPrefix>?q=<query>&p=<json>`
through the WHATWG `URL`/`URLSearchParams` API; the model reproduces the
`application/x-www-form-urlencoded` escaping that `searchParams.set`
performs. Because the two parameters are always set, every query-cache key
URL carries a `?q=` query string while the two reserved index URLs above do
not — the two key spaces never collide. -/

def hexDigit (n : Nat) : Char :=
  if n < 10 then Char.ofNat (48 + n) else Char.ofNat (55 + n)

def percentByte (b : Nat) : List Char :=
  [Char.ofNat 37, hexDigit (b / 16), hexDigit (b % 16)]

/-- UTF-8 bytes of one character. -/
def utf8Bytes (c : Char) : List Nat :=
  let n := c.toNat
  if n < 128 then [n]
  else if n < 2048 then [192 + n / 64, 128 + n % 64]
  else if n < 65536 then [224 + n / 4096, 128 + (n / 64) % 64, 128 + n % 64]
  else [240 + n / 262144, 128 + (n / 4096) % 64, 128 + (n / 64) % 64, 128 + n % 64]

/-- Source `application/x-www-form-urlencoded` escaping of one character: keep
alphanumerics and `*-._`, encode a space as `+`, percent-encode the rest. -/
def formEncodeChar (c : Char) : List Char :=
  if c.isAlphanum || c = Char.ofNat 42 || c = Char.ofNat 45 ||
     c = Char.ofNat 46 || c = Char.ofNat 95 then [c]
  else if c = Char.ofNat 32 then [Char.ofNat 43]
  else (utf8Bytes c).foldr (fun b acc => percentByte b ++ acc) []

def formEncode (s : String) : String :=
  String.mk (s.toList.foldr (fun c acc => formEncodeChar c ++ acc) [])

/-- Source `createCacheKey(query, params, prefix).url` — `paramsJson` stands for
`JSON.stringify(params)`. -/
def createCacheKey (query paramsJson pref : String) : String :=
  CACHE_INTERNAL_URL ++ "/" ++ pref ++ "?q=" ++ formEncode query ++
    "&p=" ++ formEncode paramsJson

/-! ### The cache store

The Cloudflare cache holds, under distinct URL keys: query-cache entry
responses, the query tag index blob at `TAG_INDEX_URL`, and the page index
blob at `PAGE_INDEX_URL` (the reserved URLs never collide with entry keys,
see above, so the model keeps them in separate fields). `thr = true` models
a backend whose `match`/`put`/`delete` throw on every call. -/

/-- Source `TagIndex` / `PageIndex`: tag → list of cache-key URLs / page URLs. -/
abbrev TagIndexV : Type := List (String × List String)

structure CacheState (α : Type) where
  entries : List (String × StoredResponse α)
  tagIndex : Option TagIndexV
  pageIndex : Option TagIndexV
deriving DecidableEq

/-- Source `cache.match(cacheKey)` on a query-cache key. -/
def cacheMatchEntry {α : Type} (thr : Bool) (s : CacheState α) (url : String) :
    Except Unit (Option (StoredResponse α)) :=
  if thr then .error () else .ok (lookupA s.entries url)

/-- Source `cache.put(cacheKey, response)` on a query-cache key. -/
def cachePutEntry {α : Type} (thr : Bool) (s : CacheState α) (url : String)
    (r : StoredResponse α) : Except Unit (CacheState α) :=
  if thr then .error () else .ok { s with entries := setAssoc s.entries url r }

/-- Source `cache.delete(new Request(url))`: returns whether something was deleted. -/
def cacheDelete {α : Type} (thr : Bool) (s : CacheState α) (url : String) :
    Except Unit (CacheState α × Bool) :=
  if thr then .error ()
  else .ok <|
    if url = TAG_INDEX_URL then ({ s with tagIndex := none }, s.tagIndex.isSome)
    else if url = PAGE_INDEX_URL then ({ s with pageIndex := none }, s.pageIndex.isSome)
    else ({ s with entries := eraseA s.entries url }, (lookupA s.entries url).isSome)

/-- Source `getTagIndex`: the blob at `TAG_INDEX_URL`, `{}` if absent. -/
def getTagIndex {α : Type} (thr : Bool) (s : CacheState α) : Except Unit TagIndexV :=
  if thr then .error () else .ok (s.tagIndex.getD [])

/-- Source `updateTagIndex`: write the whole blob back. -/
def updateTagIndex {α : Type} (thr : Bool) (s : CacheState α) (i : TagIndexV) :
    Except Unit (CacheState α) :=
  if thr then .error () else .ok { s with tagIndex := some i }

def getPageIndex {α : Type} (thr : Bool) (s : CacheState α) : Except Unit TagIndexV :=
  if thr then .error () else .ok (s.pageIndex.getD [])

def updatePageIndex {α : Type} (thr : Bool) (s : CacheState α) (i : TagIndexV) :
    Except Unit (CacheState α) :=
  if thr then .error () else .ok { s with pageIndex := some i }

/-- The index-update loop shared by `addToTagIndex` and `addToPageIndex`:
for each tag create its list if absent, then append the key if not
already present. -/
def tagIndexAdd (i : TagIndexV) (keyUrl : String) (tags : List String) : TagIndexV :=
  tags.foldl
    (fun acc tag =>
      match lookupA acc tag with
      | none => acc ++ [(tag, [keyUrl])]
      | some keys =>
          if keyUrl ∈ keys then acc else setAssoc acc tag (keys ++ [keyUrl]))
    i

/-- Source `addToTagIndex`: read the index, add the pairs, write it back. -/
def addToTagIndex {α : Type} (thr : Bool) (s : CacheState α) (keyUrl : String)
    (tags : List String) : Except Unit (CacheState α) := do
  let i ← getTagIndex thr s
  updateTagIndex thr s (tagIndexAdd i keyUrl tags)

/-- Source `addToPageIndex`: same shape on the page index. -/
def addToPageIndex {α : Type} (thr : Bool) (s : CacheState α) (pageUrl : String)
    (tags : List String) : Except Unit (CacheState α) := do
  let i ← getPageIndex thr s
  updatePageIndex thr s (tagIndexAdd i pageUrl tags)

/-- Source `createCacheResponse(entry, maxAge, staleWhileRevalidate)`: the stored
response carries the entry as body, `x-cache-control:
"max-age=<maxAge>, stale-while-revalidate=<swr>"` and `x-cache-time: now`
(an ISO date string in the source whose parse result is `now`; the
`content-type`, `cache-control` and `cdn-cache-control` headers it also
sets are never read back by this subsystem and are not modelled). -/
def createCacheResponse {α : Type} (entry : CacheEntryV α) (maxAge swr now : Int) :
    StoredResponse α :=
  { body := entry
    xCacheControl :=
      some ("max-age=" ++ toString maxAge ++ ", stale-while-revalidate=" ++ toString swr)
    xCacheTime := some (.int now) }

/-! ### `cachedFetch` -/

/-- Per-call cache options (`CacheOptions`); `keyPref` is the source's
`keyPrefix` field. -/
structure CacheOptionsV where
  maxAge : Option Int := none
  staleWhileRevalidate : Option Int := none
  keyPref : Option String := none
deriving DecidableEq, Repr

inductive Status where
  | HIT
  | MISS
  | STALE
deriving DecidableEq, Repr

/-- Source `CacheResult<T>`: `{ data, status, age? }`. -/
structure CacheResultV (α : Type) where
  data : α
  status : Status
  age : Option JsNum
deriving DecidableEq, Repr

/-- A task handed to `ctx.waitUntil`. `revalidate` is the stale-path task
(it calls `fetchFn` when run, then writes the entry and the tag index,
swallowing every error); `writeThrough` is the miss-path write of the
already-fetched data (no catch of its own); `pageRegister` is
`registerPageWithTags`' call of `addToPageIndex` (errors swallowed);
`loaderWrite` is the loader's `writeToCache` scheduled on the BYPASS path. -/
inductive BgTask (α : Type) where
  | revalidate (cacheKeyUrl : String) (maxAge swr : Int)
  | writeThrough (cacheKeyUrl : String) (data : α) (tags : Option (List String))
      (maxAge swr : Int)
  | pageRegister (pageUrl : String) (tags : List String)
  | loaderWrite (query paramsJson : String) (data : α) (tags : Option (List String))
      (options : CacheOptionsV)
deriving DecidableEq

/-- JS `tags?.length` truthiness: a present, non-empty array. -/
def tagsNonempty (t : Option (List String)) : Bool :=
  match t with
  | none => false
  | some l => !l.isEmpty

deriving instance DecidableEq for Except

/-- What the whole `cachedFetch` call produces without awaiting background
work: the returned (or thrown) result, the number of foreground `fetchFn`
invocations, and the scheduled background tasks. -/
structure FetchOutcome (α : Type) where
  result : Except Unit (CacheResultV α)
  fgFetches : Nat
  bg : List (BgTask α)
deriving DecidableEq

/-- Source `cachedFetch` from cache.ts. `ctx` = non-null execution context,
`cachesDefined` = `typeof caches !== 'undefined'`, `cacheDefault` =
`caches.default` truthy, `thr` = backend operations throw, `fetchRes` =
the outcome each `fetchFn()` call produces. -/
def cachedFetch {α : Type} (ctx cachesDefined cacheDefault thr : Bool) (now : Int)
    (s : CacheState α) (query paramsJson : String)
    (fetchRes : Except Unit (α × Option (List String)))
    (options : CacheOptionsV) : FetchOutcome α :=
  let maxAge := options.maxAge.getD DEFAULT_CACHE_MAX_AGE
  let swr := options.staleWhileRevalidate.getD DEFAULT_CACHE_SWR
  let keyPref := options.keyPref.getD DEFAULT_CACHE_KEY_PREF
  let directMiss : FetchOutcome α :=
    match fetchRes with
    | .error _ => ⟨.error (), 1, []⟩
    | .ok (d, _) => ⟨.ok ⟨d, .MISS, none⟩, 1, []⟩
  if !ctx then directMiss
  else if !cachesDefined then directMiss
  else if !cacheDefault then directMiss
  else
    let cacheKeyUrl := createCacheKey query paramsJson keyPref
    -- the miss path inside the try block: a foreground fetch whose failure
    -- is caught by the surrounding catch, which fetches once more and lets
    -- that second failure propagate
    let missPath : FetchOutcome α :=
      match fetchRes with
      | .error _ => ⟨.error (), 2, []⟩
      | .ok (d, tags) =>
          ⟨.ok ⟨d, .MISS, none⟩, 1, [.writeThrough cacheKeyUrl d tags maxAge swr]⟩
    match cacheMatchEntry thr s cacheKeyUrl with
    | .error _ => directMiss
    | .ok none => missPath
    | .ok (some r) =>
        if isFresh now r then
          ⟨.ok ⟨r.body.data, .HIT, some (getCacheAge now r)⟩, 0, []⟩
        else if isStaleButValid now r then
          ⟨.ok ⟨r.body.data, .STALE, some (getCacheAge now r)⟩, 0,
            [.revalidate cacheKeyUrl maxAge swr]⟩
        else missPath

/-- Run one background task: its effect on the store, and the number of
`fetchFn` invocations it performs. -/
def runBgTask {α : Type} (cachesDefined cacheDefault thr : Bool) (now : Int)
    (fetchRes : Except Unit (α × Option (List String))) (s : CacheState α) :
    BgTask α → CacheState α × Nat
  | .revalidate url maxAge swr =>
      match fetchRes with
      | .error _ => (s, 1)
      | .ok (d, tags) =>
          match cachePutEntry thr s url (createCacheResponse ⟨d, tags⟩ maxAge swr now) with
          | .error _ => (s, 1)
          | .ok s1 =>
              if tagsNonempty tags then
                match addToTagIndex thr s1 url (tags.getD []) with
                | .error _ => (s1, 1)
                | .ok s2 => (s2, 1)
              else (s1, 1)
  | .writeThrough url d tags maxAge swr =>
      match cachePutEntry thr s url (createCacheResponse ⟨d, tags⟩ maxAge swr now) with
      | .error _ => (s, 0)
      | .ok s1 =>
          if tagsNonempty tags then
            match addToTagIndex thr s1 url (tags.getD []) with
            | .error _ => (s1, 0)
            | .ok s2 => (s2, 0)
          else (s1, 0)
  | .pageRegister url tags =>
      match addToPageIndex thr s url tags with
      | .error _ => (s, 0)
      | .ok s1 => (s1, 0)
  | .loaderWrite q p d tags o =>
      if !cachesDefined then (s, 0)
      else if !cacheDefault then (s, 0)
      else
        let url := createCacheKey q p (o.keyPref.getD DEFAULT_CACHE_KEY_PREF)
        let r := createCacheResponse ⟨d, tags⟩ (o.maxAge.getD DEFAULT_CACHE_MAX_AGE)
          (o.staleWhileRevalidate.getD DEFAULT_CACHE_SWR) now
        match cachePutEntry thr s url r with
        | .error _ => (s, 0)
        | .ok s1 =>
            if tagsNonempty tags then
              match addToTagIndex thr s1 url (tags.getD []) with
              | .error _ => (s1, 0)
              | .ok s2 => (s2, 0)
            else (s1, 0)

/-- Run a list of background tasks in order, totalling `fetchFn` calls. -/
def runBgTasks {α : Type} (cachesDefined cacheDefault thr : Bool) (now : Int)
    (fetchRes : Except Unit (α × Option (List String))) :
    CacheState α → List (BgTask α) → CacheState α × Nat
  | s, [] => (s, 0)
  | s, t :: rest =>
      let r := runBgTask cachesDefined cacheDefault thr now fetchRes s t
      let r2 := runBgTasks cachesDefined cacheDefault thr now fetchRes r.1 rest
      (r2.1, r.2 + r2.2)

/-! ### `purgeCacheByTags` -/

structure PurgeCacheResultV where
  purgedQueryKeys : List String
  purgedPageUrls : List String
  purgedTags : List String
deriving DecidableEq, Repr

/-- The inner delete loop over one tag's key list: delete each key,
recording it (deduplicated, insertion order — a JS `Set`) when the delete
reported success. Only reached with a non-throwing backend. -/
def purgeDeleteKeys {α : Type} :
    CacheState α → List String → List String → CacheState α × List String
  | st, purged, [] => (st, purged)
  | st, purged, url :: rest =>
      match cacheDelete false st url with
      | .error _ => (st, purged)
      | .ok (st', deleted) =>
          purgeDeleteKeys st'
            (if deleted && !(purged.contains url) then purged ++ [url] else purged) rest

/-- The query-scope purge loop: for each requested tag present in the
index, record it in `purgedTags`, delete its keys, and remove it from the
in-memory index. -/
def purgeQueryLoop {α : Type} :
    TagIndexV → CacheState α → List String → List String → List String →
      TagIndexV × CacheState α × List String × List String
  | idx, st, ptags, pkeys, [] => (idx, st, ptags, pkeys)
  | idx, st, ptags, pkeys, tag :: rest =>
      match lookupA idx tag with
      | none => purgeQueryLoop idx st ptags pkeys rest
      | some keys =>
          let d := purgeDeleteKeys st pkeys keys
          purgeQueryLoop (eraseA idx tag) d.1 (ptags ++ [tag]) d.2 rest

/-- The page-scope purge loop: same shape, but it does NOT record the tag
in `purgedTags`. -/
def purgePageLoop {α : Type} :
    TagIndexV → CacheState α → List String → List String →
      TagIndexV × CacheState α × List String
  | idx, st, purls, [] => (idx, st, purls)
  | idx, st, purls, tag :: rest =>
      match lookupA idx tag with
      | none => purgePageLoop idx st purls rest
      | some urls =>
          let d := purgeDeleteKeys st purls urls
          purgePageLoop (eraseA idx tag) d.1 d.2 rest

/-- Source `purgeCacheByTags` (the two-index version of cache.ts): purge the query
cache by the tag index, write the index back, then purge page URLs by the
page index and write that back. With a throwing backend the initial
`getTagIndex` throws and the catch returns the still-empty result. -/
def purgeCacheByTags {α : Type} (cachesDefined cacheDefault thr : Bool)
    (s : CacheState α) (tags : List String) : PurgeCacheResultV × CacheState α :=
  if !cachesDefined then (⟨[], [], []⟩, s)
  else if !cacheDefault then (⟨[], [], []⟩, s)
  else if thr then (⟨[], [], []⟩, s)
  else
    let tagIndex := s.tagIndex.getD []
    let q := purgeQueryLoop tagIndex s [] [] tags
    let s2 : CacheState α := { q.2.1 with tagIndex := some q.1 }
    let pageIndex := s2.pageIndex.getD []
    let p := purgePageLoop pageIndex s2 [] tags
    let s3 : CacheState α := { p.2.1 with pageIndex := some p.1 }
    (⟨q.2.2.2, p.2.2, q.2.2.1⟩, s3)

/-! ### The purge HTTP handler (`createPurgeHandler`) -/

/-- Enough of a JSON value to model the request body's `tags` field. -/
inductive JsonVal where
  | jnull
  | jbool (b : Bool)
  | jnum (n : Int)
  | jstr (s : String)
  | jarr (xs : List JsonVal)
  | jobj

/-- JS truthiness of a possibly-absent JSON value (`!body.tags`). -/
def jsTruthyJson : Option JsonVal → Bool
  | none => false
  | some .jnull => false
  | some (.jbool b) => b
  | some (.jnum n) => decide (n ≠ 0)
  | some (.jstr s) => !(s == "")
  | some (.jarr _) => true
  | some .jobj => true

def isJsonArray : Option JsonVal → Bool
  | some (.jarr _) => true
  | _ => false

/-- The parsed JSON request body (an object; `tags` may be absent or of any
JSON type, `eventId` is read only to be echoed back). -/
structure PurgeReqBody where
  tags : Option JsonVal
  eventId : Option String

/-- Source `body.tags.filter(tag => typeof tag === 'string' && tag.length > 0)`. -/
def filterValidTags (xs : List JsonVal) : List String :=
  xs.filterMap (fun v =>
    match v with
    | .jstr s => if s.length > 0 then some s else none
    | _ => none)

/-- The JSON response the handler writes, together with its HTTP status. -/
structure PurgeHttpResponse where
  status : Nat
  success : Bool
  purgedKeys : List String
  purgedQueryKeys : List String
  purgedPageUrls : List String
  purgedTags : List String
  eventId : Option String
  error : Option String
deriving DecidableEq, Repr

/-- The handler returned by `createPurgeHandler` (purge-handler.ts, the
two-index version), applied to one request: method check, body parse
(`body = .error ()` models `request.json()` rejecting, which the catch
turns into a 500), tags validation, filtering, then `purgeCacheByTags`. -/
def handlePurgeRequest {α : Type} (cachesDefined cacheDefault thr : Bool)
    (s : CacheState α) (method : String) (body : Except Unit PurgeReqBody) :
    PurgeHttpResponse × CacheState α :=
  if method ≠ "POST" then
    (⟨405, false, [], [], [], [], none, some "Method not allowed. Use POST."⟩, s)
  else
    match body with
    | .error _ => (⟨500, false, [], [], [], [], none, some "Unknown error"⟩, s)
    | .ok b =>
        if !(jsTruthyJson b.tags) || !(isJsonArray b.tags) then
          (⟨400, false, [], [], [], [], none, some "Missing or invalid tags array"⟩, s)
        else
          let xs := match b.tags with | some (.jarr xs) => xs | _ => []
          let tags := filterValidTags xs
          if tags.isEmpty then
            (⟨200, true, [], [], [], [], b.eventId, none⟩, s)
          else
            let pr := purgeCacheByTags cachesDefined cacheDefault thr s tags
            (⟨200, true, pr.1.purgedQueryKeys, pr.1.purgedQueryKeys,
                pr.1.purgedPageUrls, pr.1.purgedTags, b.eventId, none⟩, pr.2)

/-! ### The loader (`loader.ts`) -/

/-- Source `PageCacheOptions`. -/
structure PageCacheOptionsV where
  maxAge : Option Int := none
  staleWhileRevalidate : Option Int := none
  browserMaxAge : Option Int := none
  disabled : Option Bool := none
deriving DecidableEq, Repr

/-- The request-scoped `Astro.locals` bag (typed view of the dynamically
keyed properties the loader uses); `ctxAvailable` stands for
`locals.ctx ?? locals.runtime.ctx` being non-null. -/
structure LocalsV where
  pageCacheSet : Bool
  pageTags : Option (List String)
  lastLiveEventId : Option String
  ctxAvailable : Bool
deriving DecidableEq

/-- The slice of the Astro global the loader touches: cookies, locals
(`none` = `Astro.locals` undefined), the request URL, and the response
headers (`none` = no response object). -/
structure AstroCtx where
  cookies : List (String × String)
  locals : Option LocalsV
  urlPathname : String
  urlHref : String
  responseHeaders : Option (List (String × String))
deriving DecidableEq

/-- Source `shouldSkipPageCache`: the pathname starts with one of
`NO_CACHE_ROUTE_PREFIXES`. -/
def shouldSkipPageCache (pathname : String) : Bool :=
  NO_CACHE_ROUTE_LIST.any (fun p => p.toList.isPrefixOf pathname.toList)

/-- Source `hasPageCacheHeadersSet`: `locals.__sanityPageCacheSet === true`. -/
def hasPageCacheHeadersSet (locals : Option LocalsV) : Bool :=
  match locals with
  | none => false
  | some l => l.pageCacheSet

/-- Source `markPageCacheHeadersSet` (no-op when `Astro.locals` is undefined). -/
def markPageCacheHeadersSet (a : AstroCtx) : AstroCtx :=
  match a.locals with
  | none => a
  | some l => { a with locals := some { l with pageCacheSet := true } }

/-- Source `setPageCacheHeaders`: set `CDN-Cache-Control`, `Cache-Control` and
(for a non-empty tag list) `X-Sanity-Tags` on the response, unless one of
the four skip conditions holds; finally mark the request as done.
(`Headers.set` is case-insensitive in the platform; the three names used
here are fixed literals, so plain association-list update is faithful.) -/
def setPageCacheHeaders (a : AstroCtx) (tags : List String)
    (options : PageCacheOptionsV) : AstroCtx :=
  match a.responseHeaders with
  | none => a
  | some hs =>
      if hasPageCacheHeadersSet a.locals then a
      else if options.disabled = some true then a
      else if shouldSkipPageCache a.urlPathname then a
      else
        let maxAge := options.maxAge.getD DEFAULT_PAGE_CACHE_MAX_AGE
        let swr := options.staleWhileRevalidate.getD DEFAULT_PAGE_CACHE_SWR
        let browserMaxAge := options.browserMaxAge.getD DEFAULT_BROWSER_CACHE_MAX_AGE
        let hs1 := setAssoc hs "CDN-Cache-Control"
          ("public, max-age=" ++ toString maxAge ++ ", stale-while-revalidate=" ++ toString swr)
        let hs2 := setAssoc hs1 "Cache-Control"
          ("public, max-age=" ++ toString browserMaxAge ++ ", must-revalidate")
        let hs3 :=
          if decide (tags.length > 0) then
            setAssoc hs2 "X-Sanity-Tags" (String.intercalate "," tags)
          else hs2
        markPageCacheHeadersSet { a with responseHeaders := some hs3 }

/-- Source `collectPageTags`: aggregate this call's tags into
`locals.__sanityPageTags`; returns the updated Astro state and the
aggregated list (empty when locals are missing or no tags came in). -/
def collectPageTags (a : AstroCtx) (tags : Option (List String)) :
    AstroCtx × List String :=
  match a.locals with
  | none => (a, [])
  | some l =>
      if !(tagsNonempty tags) then (a, [])
      else
        let ts := tags.getD []
        let allTags := l.pageTags.getD []
        let newTags := ts.filter (fun t => !(allTags.contains t))
        if decide (newTags.length > 0) then
          let combined := allTags ++ newTags
          ({ a with locals := some { l with pageTags := some combined } }, combined)
        else (a, allTags)

/-- Source `isVisualEditingEnabled`: the visual-editing cookie is exactly "true". -/
def isVisualEditingEnabled (a : AstroCtx) : Bool :=
  lookupA a.cookies VISUAL_EDITING_ENABLED == some "true"

/-- The loader's `lastLiveEventId` resolution: take the truthy value from
locals (read with optional chaining), else from the cookie — in the latter
case record it on locals and delete the cookie. The write to
`Astro.locals` is NOT guarded in the source (loader.ts line 308): when
`Astro.locals` is undefined and the cookie value is truthy, the property
assignment throws a `TypeError` (before the cookie is deleted), modelled
as `.error ()`. Otherwise returns the updated Astro state and the
resolved value. -/
def resolveLiveEventId (a : AstroCtx) : Except Unit (AstroCtx × Option String) :=
  let fromLocals := match a.locals with | some l => l.lastLiveEventId | none => none
  if jsTruthyOptStr fromLocals then .ok (a, fromLocals)
  else
    let fromCookie := lookupA a.cookies LAST_LIVE_EVENT_ID_COOKIE
    if jsTruthyOptStr fromCookie then
      match a.locals with
      | none => .error ()
      | some l =>
          let a1 := { a with locals := some { l with lastLiveEventId := fromCookie } }
          .ok ({ a1 with cookies := eraseA a1.cookies LAST_LIVE_EVENT_ID_COOKIE },
            fromCookie)
    else .ok (a, fromCookie)

inductive Perspective where
  | published
  | drafts
deriving DecidableEq, Repr

inductive CacheStatusL where
  | HIT
  | MISS
  | STALE
  | BYPASS
deriving DecidableEq, Repr

def statusToL : Status → CacheStatusL
  | .HIT => .HIT
  | .MISS => .MISS
  | .STALE => .STALE

/-- What the upstream Sanity client returns with `filterResponse: false`:
the query result plus `syncTags`. -/
structure SanityResponse (β : Type) where
  result : β
  syncTags : Option (List String)
deriving DecidableEq

/-- Source `LoadQueryResult` (minus `ms`, a wall-clock measurement). -/
structure LoadQueryResultV (β : Type) where
  data : β
  perspective : Perspective
  cacheStatus : CacheStatusL
  cacheAge : Option JsNum
  tags : Option (List String)
deriving DecidableEq

/-- The per-call `cache` option: absent, `false`, or an options object. -/
inductive CacheOpt where
  | unset
  | off
  | opts (o : CacheOptionsV)
deriving DecidableEq

/-- The per-call `pageCache` option. -/
inductive PageCacheOpt where
  | unset
  | off
  | opts (o : PageCacheOptionsV)
deriving DecidableEq

/-- Object spread `{...a, ...b}` on cache options. -/
def mergeCacheOptions (a b : CacheOptionsV) : CacheOptionsV :=
  { maxAge := b.maxAge <|> a.maxAge
    staleWhileRevalidate := b.staleWhileRevalidate <|> a.staleWhileRevalidate
    keyPref := b.keyPref <|> a.keyPref }

/-- Object spread `{...a, ...b}` on page-cache options. -/
def mergePageCacheOptions (a b : PageCacheOptionsV) : PageCacheOptionsV :=
  { maxAge := b.maxAge <|> a.maxAge
    staleWhileRevalidate := b.staleWhileRevalidate <|> a.staleWhileRevalidate
    browserMaxAge := b.browserMaxAge <|> a.browserMaxAge
    disabled := b.disabled <|> a.disabled }

def DEFAULT_CACHE_OPTIONS : CacheOptionsV :=
  { maxAge := some DEFAULT_CACHE_MAX_AGE
    staleWhileRevalidate := some DEFAULT_CACHE_SWR
    keyPref := some DEFAULT_CACHE_KEY_PREF }

def DEFAULT_PAGE_CACHE_OPTIONS : PageCacheOptionsV :=
  { maxAge := some DEFAULT_PAGE_CACHE_MAX_AGE
    staleWhileRevalidate := some DEFAULT_PAGE_CACHE_SWR
    browserMaxAge := some DEFAULT_BROWSER_CACHE_MAX_AGE
    disabled := some false }

/-- Everything one `loadQuery` call produces: the returned (or thrown)
result, the Astro state after cookie/locals/header mutations, and the
scheduled background tasks. -/
structure LoadQueryOutcome (β : Type) where
  result : Except Unit (LoadQueryResultV β)
  astro : AstroCtx
  bg : List (BgTask (SanityResponse β))
deriving DecidableEq

/-- Source `loadQuery` (loader.ts). `initCache`/`initPageCache` are the options
given to `initSanity`; `upstream` is what one Sanity fetch produces (the
model's `fetchFromSanity` returns it paired with its `syncTags`);
`tokenPresent` = `SANITY_API_READ_TOKEN` set. -/
def loadQuery {β : Type} (cachesDefined cacheDefault thr : Bool) (now : Int)
    (tokenPresent : Bool) (initCache : Option CacheOptionsV)
    (initPageCache : Option PageCacheOptionsV)
    (s : CacheState (SanityResponse β)) (a : AstroCtx)
    (query paramsJson : String) (cacheOption : CacheOpt)
    (pageCacheOption : PageCacheOpt)
    (upstream : Except Unit (SanityResponse β)) : LoadQueryOutcome β :=
  let visualEditing := isVisualEditingEnabled a
  match resolveLiveEventId a with
  -- the unguarded locals write threw a TypeError, before the try block:
  -- it propagates, nothing is mutated and nothing is scheduled
  | .error e => ⟨.error e, a, []⟩
  | .ok (a1, lastLiveEventId) =>
    let perspective : Perspective :=
      if visualEditing && tokenPresent then .drafts else .published
    let ctx := match a1.locals with | some l => l.ctxAvailable | none => false
    let mergedCacheOptions :=
      mergeCacheOptions
        (mergeCacheOptions DEFAULT_CACHE_OPTIONS (initCache.getD {}))
        (match cacheOption with | .opts o => o | _ => {})
    let globalPageCacheOptions :=
      mergePageCacheOptions DEFAULT_PAGE_CACHE_OPTIONS (initPageCache.getD {})
    let mergedPageCacheOptions :=
      match pageCacheOption with
      | .off => { globalPageCacheOptions with disabled := some true }
      | .opts o => mergePageCacheOptions globalPageCacheOptions o
      | .unset => mergePageCacheOptions globalPageCacheOptions {}
    let shouldCache :=
      !visualEditing && !(jsTruthyOptStr lastLiveEventId) && !(cacheOption == .off)
    let shouldSetPageHeaders :=
      !visualEditing && !(mergedPageCacheOptions.disabled == some true)
    let fetchRes : Except Unit (SanityResponse β × Option (List String)) :=
      match upstream with
      | .error e => .error e
      | .ok r => .ok (r, r.syncTags)
    -- shared tail: collect page tags, set page headers once, register the
    -- page URL with its tags
    let finish := fun (data : β) (cacheStatus : CacheStatusL) (cacheAge : Option JsNum)
        (tags : Option (List String)) (bg : List (BgTask (SanityResponse β))) =>
      let collected := collectPageTags a1 tags
      let a2 := collected.1
      let allPageTags := collected.2
      let a3 :=
        if shouldSetPageHeaders && decide (allPageTags.length > 0) then
          setPageCacheHeaders a2 allPageTags mergedPageCacheOptions
        else a2
      let bg2 :=
        if shouldSetPageHeaders && tagsNonempty tags && ctx &&
            cachesDefined && cacheDefault then
          bg ++ [.pageRegister a3.urlHref (tags.getD [])]
        else bg
      LoadQueryOutcome.mk (.ok ⟨data, perspective, cacheStatus, cacheAge, tags⟩) a3 bg2
    if shouldCache then
      let out := cachedFetch ctx cachesDefined cacheDefault thr now s query paramsJson
        fetchRes mergedCacheOptions
      match out.result with
      | .error _ => ⟨.error (), a1, out.bg⟩
      | .ok cr =>
          finish cr.data.result (statusToL cr.status) cr.age cr.data.syncTags out.bg
    else
      match upstream with
      | .error _ => ⟨.error (), a1, []⟩
      | .ok r =>
          let bg :=
            if !visualEditing && ctx && cachesDefined then
              [.loaderWrite query paramsJson r r.syncTags mergedCacheOptions]
            else []
          finish r.result .BYPASS none r.syncTags bg

/-! ### Concrete states used by witnesses and counterexamples -/

/-- A concrete stale entry for witnesses: written at time 0 with
`maxAge=60, swr=300`, holding data `5` under tag `"a"`. -/
def wEntry : StoredResponse Nat :=
  { body := ⟨5, some ["a"]⟩
    xCacheControl := some "max-age=60, stale-while-revalidate=300"
    xCacheTime := some (.int 0) }

def wKey : String := createCacheKey "Q" "pp" "sanity"

def wState : CacheState Nat := ⟨[(wKey, wEntry)], none, none⟩

/-- The stored metadata carries a non-`NaN` numeric `max-age` directive. -/
def hasNumericMaxAge {α : Type} (r : StoredResponse α) : Bool :=
  match lookupA (parseCacheControl r.xCacheControl) "max-age" with
  | some (.num (.int _)) => true
  | _ => false

/-- Counterexample to C6: an entry whose stored timestamp header is ABSENT
but whose cache-control metadata is intact (`max-age=300`). -/
def c6Entry : StoredResponse Nat :=
  { body := ⟨5, none⟩
    xCacheControl := some "max-age=300, stale-while-revalidate=3600"
    xCacheTime := none }

def c6State : CacheState Nat := ⟨[(createCacheKey "Q" "pp" "sanity", c6Entry)], none, none⟩

/-- An entry with no cache-control header at all, for the C6 witness. -/
def c6bEntry : StoredResponse Nat :=
  { body := ⟨5, none⟩, xCacheControl := none, xCacheTime := some (.int 0) }

def c6bState : CacheState Nat :=
  ⟨[(createCacheKey "Q" "pp" "sanity", c6bEntry)], none, none⟩

/-- A state for the C9 witness: the entry at "k" is untagged (listed in no
index). -/
def c9State : CacheState Nat := ⟨[("k", wEntry)], some [("t", ["other"])], none⟩

/-- A state whose tag "t" is listed ONLY in the page-scope index (with its
page present in the store), for the C5 counterexample. -/
def c5State : CacheState Nat :=
  ⟨[("https://site/p", wEntry)], none, some [("t", ["https://site/p"])]⟩

/-- A state for the C5 witness: tag "a" in the query index, "b" nowhere. -/
def c5bState : CacheState Nat := ⟨[], some [("a", ["k1"])], none⟩

def o8 : PageCacheOptionsV := ⟨none, none, none, none⟩

def o8dis : PageCacheOptionsV := ⟨none, none, none, some true⟩

def a8 : AstroCtx :=
  ⟨[], some ⟨false, none, none, false⟩, "/page", "https://site/page", some []⟩

def a8skip : AstroCtx :=
  ⟨[], some ⟨false, none, none, false⟩, "/api/x", "https://site/api/x", some []⟩

def a8set : AstroCtx :=
  ⟨[], some ⟨true, none, none, false⟩, "/page", "https://site/page", some []⟩

def c10Astro : AstroCtx :=
  ⟨[(VISUAL_EDITING_ENABLED, "true")], some ⟨false, none, none, true⟩, "/",
    "https://site/", some []⟩

/-- A state for the C4 witness: tag "t" lists entry "k1", tag "u" lists
"k2". -/
def c4State : CacheState Nat :=
  ⟨[("k1", wEntry), ("k2", wEntry)], some [("t", ["k1"]), ("u", ["k2"])], none⟩

/-! ### Helper lemmas about the freshness policy -/

lemma parse_lookup_not_falsy {k : String} {j : DirVal} {h : Option String}
    (hl : lookupA (parseCacheControl h) k = some j) : jsFalsyStr h = false := by
  cases hfal : jsFalsyStr h
  · rfl
  · simp [parseCacheControl, hfal, lookupA] at hl

lemma isFresh_eq_jsLe {α : Type} (now : Int) (r : StoredResponse α) {m : JsNum}
    (hM : lookupA (parseCacheControl r.xCacheControl) "max-age" = some (.num m)) :
    isFresh now r = jsLe (getCacheAge now r) m := by
  simp [isFresh, parse_lookup_not_falsy hM, hM]

lemma isStaleButValid_eq {α : Type} (now : Int) (r : StoredResponse α) {m s : JsNum}
    (hM : lookupA (parseCacheControl r.xCacheControl) "max-age" = some (.num m))
    (hS : lookupA (parseCacheControl r.xCacheControl) "stale-while-revalidate"
      = some (.num s)) :
    isStaleButValid now r
      = (jsGt (getCacheAge now r) m && jsLe (getCacheAge now r) (jsAdd m s)) := by
  simp [isStaleButValid, parse_lookup_not_falsy hM, hM, hS]

/-- A stale-but-valid response is never fresh: both predicates parse the
same header, and `age > maxAge` contradicts `age <= maxAge`. -/
lemma isFresh_false_of_stale {α : Type} (now : Int) (r : StoredResponse α)
    (h : isStaleButValid now r = true) : isFresh now r = false := by
  unfold isStaleButValid at h
  cases hfal : jsFalsyStr r.xCacheControl
  · rw [if_neg (by simp [hfal])] at h
    cases hm : lookupA (parseCacheControl r.xCacheControl) "max-age" with
    | none => simp [hm] at h
    | some v =>
      cases v with
      | flag => simp [hm] at h
      | num m =>
        cases hs : lookupA (parseCacheControl r.xCacheControl) "stale-while-revalidate" with
        | none => simp [hm, hs] at h
        | some w =>
          cases w with
          | flag => simp [hm, hs] at h
          | num s =>
            rw [isFresh_eq_jsLe now r hm]
            simp only [hm, hs] at h
            cases hage : getCacheAge now r with
            | nan => simp [jsLe]
            | int a =>
              cases m with
              | nan => simp [jsLe]
              | int mv =>
                rw [hage] at h
                have hgt : jsGt (JsNum.int a) (JsNum.int mv) = true :=
                  (Bool.and_eq_true _ _ |>.mp h).1
                simp [jsGt] at hgt
                simp [jsLe]
                omega
  · rw [if_pos (by simp [hfal])] at h
    exact absurd h (by simp)

/-- Number of `fetchFn` invocations a stale-path revalidation performs when
run: exactly one, whatever the backend or the fetch outcome. -/
lemma runBgTask_revalidate_fetches {α : Type} (cachesDefined cacheDefault thr : Bool)
    (now : Int) (fetchRes : Except Unit (α × Option (List String)))
    (s : CacheState α) (url : String) (m w : Int) :
    (runBgTask cachesDefined cacheDefault thr now fetchRes s
      (.revalidate url m w)).2 = 1 := by
  unfold runBgTask
  rcases fetchRes with _ | ⟨d, tg⟩
  · rfl
  · rcases hp : cachePutEntry thr s url (createCacheResponse ⟨d, tg⟩ m w now) with _ | s1
    · simp [hp]
    · simp [hp]
      cases htg : tagsNonempty tg
      · simp [htg]
      · simp [htg]
        rcases ha : addToTagIndex thr s1 url (tg.getD []) with _ | s2 <;> simp [ha]

/-- C1. For every cached entry whose stored metadata carries numeric
max-age `M` and stale-while-revalidate `S`, `cachedFetch` classifies the
entry by its age `A`: `A ≤ M` is served as HIT, `M < A ≤ M + S` as STALE,
and `A > M + S` is treated as expired and handled as a MISS with a
synchronous refetch (one foreground `fetchFn` call). Both boundary ages
belong to the fresher window; taking `M = 0` or `S = 0` collapses the
corresponding window. -/
theorem c1_freshness_classification {α : Type} (now : Int)
    (s : CacheState α) (query paramsJson : String) (options : CacheOptionsV)
    (d : α) (tg : Option (List String)) (r : StoredResponse α) (M S A : Int)
    (hk : lookupA s.entries
      (createCacheKey query paramsJson (options.keyPref.getD DEFAULT_CACHE_KEY_PREF))
      = some r)
    (hM : lookupA (parseCacheControl r.xCacheControl) "max-age"
      = some (.num (.int M)))
    (hS : lookupA (parseCacheControl r.xCacheControl) "stale-while-revalidate"
      = some (.num (.int S)))
    (hA : getCacheAge now r = .int A)
    (hS0 : 0 ≤ S) :
    (A ≤ M →
      cachedFetch true true true false now s query paramsJson (.ok (d, tg)) options
        = ⟨.ok ⟨r.body.data, .HIT, some (.int A)⟩, 0, []⟩)
    ∧ (M < A → A ≤ M + S →
      cachedFetch true true true false now s query paramsJson (.ok (d, tg)) options
        = ⟨.ok ⟨r.body.data, .STALE, some (.int A)⟩, 0,
            [.revalidate
              (createCacheKey query paramsJson (options.keyPref.getD DEFAULT_CACHE_KEY_PREF))
              (options.maxAge.getD DEFAULT_CACHE_MAX_AGE)
              (options.staleWhileRevalidate.getD DEFAULT_CACHE_SWR)]⟩)
    ∧ (M + S < A →
      cachedFetch true true true false now s query paramsJson (.ok (d, tg)) options
        = ⟨.ok ⟨d, .MISS, none⟩, 1,
            [.writeThrough
              (createCacheKey query paramsJson (options.keyPref.getD DEFAULT_CACHE_KEY_PREF))
              d tg
              (options.maxAge.getD DEFAULT_CACHE_MAX_AGE)
              (options.staleWhileRevalidate.getD DEFAULT_CACHE_SWR)]⟩) := by
  refine ⟨fun hAM => ?_, fun hMA hAMS => ?_, fun hexp => ?_⟩
  · have hf : isFresh now r = true := by
      rw [isFresh_eq_jsLe now r hM, hA]
      simp [jsLe]
      exact hAM
    simp [cachedFetch, cacheMatchEntry, hk, hf, hA]
  · have hf : isFresh now r = false := by
      rw [isFresh_eq_jsLe now r hM, hA]
      simp [jsLe]
      omega
    have hst : isStaleButValid now r = true := by
      rw [isStaleButValid_eq now r hM hS, hA]
      simp [jsGt, jsLe, jsAdd]
      exact ⟨hMA, hAMS⟩
    simp [cachedFetch, cacheMatchEntry, hk, hf, hst, hA]
  · have hf : isFresh now r = false := by
      rw [isFresh_eq_jsLe now r hM, hA]
      simp [jsLe]
      omega
    have hst : isStaleButValid now r = false := by
      rw [isStaleButValid_eq now r hM hS, hA]
      simp [jsGt, jsLe, jsAdd]
      omega
    simp [cachedFetch, cacheMatchEntry, hk, hf, hst]

/-- Witness for C1 at age 70 against `maxAge=60, swr=300`: the STALE
window. -/
theorem c1_freshness_classification_witness :
    cachedFetch true true true false 70000 wState "Q" "pp"
        (.ok ((7 : Nat), some ["b"])) ⟨none, none, none⟩
      = ⟨.ok ⟨5, .STALE, some (.int 70)⟩, 0, [.revalidate wKey 86400 604800]⟩ :=
  (c1_freshness_classification 70000 wState "Q" "pp" ⟨none, none, none⟩ 7 (some ["b"])
      wEntry 60 300 70 (by decide) (by decide) (by decide) (by decide)
      (by decide)).2.1 (by decide) (by decide)

/-- C2. With a non-null execution context and an available (non-throwing)
cache holding a stale-but-valid entry at the computed key, `cachedFetch`
returns the old data with status STALE and the old age, performs no
foreground `fetchFn` call, and schedules exactly one background task — a
revalidation that invokes `fetchFn` exactly once when run. -/
theorem c2_stale_serves_old_and_refetches_in_background {α : Type} (now : Int)
    (s : CacheState α) (query paramsJson : String) (options : CacheOptionsV)
    (fetchRes : Except Unit (α × Option (List String))) (r : StoredResponse α)
    (hk : lookupA s.entries
      (createCacheKey query paramsJson (options.keyPref.getD DEFAULT_CACHE_KEY_PREF))
      = some r)
    (hst : isStaleButValid now r = true) :
    cachedFetch true true true false now s query paramsJson fetchRes options
      = ⟨.ok ⟨r.body.data, .STALE, some (getCacheAge now r)⟩, 0,
          [.revalidate
            (createCacheKey query paramsJson (options.keyPref.getD DEFAULT_CACHE_KEY_PREF))
            (options.maxAge.getD DEFAULT_CACHE_MAX_AGE)
            (options.staleWhileRevalidate.getD DEFAULT_CACHE_SWR)]⟩
    ∧ ∀ s' : CacheState α,
        (runBgTask true true false now fetchRes s'
          (.revalidate
            (createCacheKey query paramsJson (options.keyPref.getD DEFAULT_CACHE_KEY_PREF))
            (options.maxAge.getD DEFAULT_CACHE_MAX_AGE)
            (options.staleWhileRevalidate.getD DEFAULT_CACHE_SWR))).2 = 1 := by
  have hf : isFresh now r = false := isFresh_false_of_stale now r hst
  refine ⟨?_, fun s' => runBgTask_revalidate_fetches _ _ _ _ _ _ _ _ _⟩
  simp [cachedFetch, cacheMatchEntry, hk, hf, hst]

/-- Witness for C2: the entry written 70s ago with `maxAge=60, swr=300`. -/
theorem c2_stale_serves_old_witness :
    (cachedFetch true true true false 70000 wState "Q" "pp"
        (.ok ((9 : Nat), some ["c"])) ⟨none, none, none⟩
      = ⟨.ok ⟨5, .STALE, some (.int 70)⟩, 0, [.revalidate wKey 86400 604800]⟩)
    ∧ ∀ s' : CacheState Nat,
        (runBgTask true true false 70000 (.ok ((9 : Nat), some ["c"])) s'
          (.revalidate wKey 86400 604800)).2 = 1 :=
  c2_stale_serves_old_and_refetches_in_background 70000 wState "Q" "pp"
    ⟨none, none, none⟩ (.ok (9, some ["c"])) wEntry (by decide) (by decide)

/-- C3. Against a cache backend whose `match`/`put`/`delete` throw on every
call, and a `fetchFn` that succeeds, `cachedFetch` does not throw: it
returns the upstream data with status MISS (and schedules nothing). -/
theorem c3_throwing_backend_degrades_to_miss {α : Type} (now : Int)
    (s : CacheState α) (query paramsJson : String) (options : CacheOptionsV)
    (d : α) (tg : Option (List String)) :
    cachedFetch true true true true now s query paramsJson (.ok (d, tg)) options
      = ⟨.ok ⟨d, .MISS, none⟩, 1, []⟩ := by
  simp [cachedFetch, cacheMatchEntry]

lemma jsLe_nan_left (x : JsNum) : jsLe .nan x = false := by cases x <;> rfl

lemma jsLe_nan_right (x : JsNum) : jsLe x .nan = false := by cases x <;> rfl

lemma jsGt_nan_left (x : JsNum) : jsGt .nan x = false := by cases x <;> rfl

lemma jsGt_nan_right (x : JsNum) : jsGt x .nan = false := by cases x <;> rfl

/-- Counterexample to C6 as stated: with the stored timestamp header
missing, `getCacheAge` returns 0, so the entry is served as a HIT with the
stored data `5` (age 0) — not treated as absent and refetched as MISS,
even at an arbitrarily late `now`. -/
theorem c6_missing_timestamp_counterexample :
    cachedFetch true true true false 999999000 c6State "Q" "pp"
        (.ok ((7 : Nat), none)) ⟨none, none, none⟩
      = ⟨.ok ⟨5, .HIT, some (.int 0)⟩, 0, []⟩ := by
  decide

lemma isFresh_false_of_malformed {α : Type} (now : Int) (r : StoredResponse α)
    (hmal : hasNumericMaxAge r = false ∨ r.xCacheTime = some .nan) :
    isFresh now r = false := by
  unfold isFresh
  cases hfal : jsFalsyStr r.xCacheControl
  · simp only [hfal, Bool.false_eq_true, if_false]
    rcases hmal with hmal | hmal
    · cases hm : lookupA (parseCacheControl r.xCacheControl) "max-age" with
      | none => simp [hm]
      | some v =>
        cases v with
        | flag => simp [hm]
        | num j =>
          cases j with
          | nan => simp [hm, jsLe_nan_right]
          | int m =>
            unfold hasNumericMaxAge at hmal
            rw [hm] at hmal
            simp at hmal
    · have hage : getCacheAge now r = .nan := by simp [getCacheAge, hmal]
      cases hm : lookupA (parseCacheControl r.xCacheControl) "max-age" with
      | none => simp [hm]
      | some v =>
        cases v with
        | flag => simp [hm]
        | num j => simp [hm, hage, jsLe_nan_left]
  · simp [hfal]

lemma isStaleButValid_false_of_malformed {α : Type} (now : Int) (r : StoredResponse α)
    (hmal : hasNumericMaxAge r = false ∨ r.xCacheTime = some .nan) :
    isStaleButValid now r = false := by
  unfold isStaleButValid
  cases hfal : jsFalsyStr r.xCacheControl
  · simp only [hfal, Bool.false_eq_true, if_false]
    rcases hmal with hmal | hmal
    · cases hm : lookupA (parseCacheControl r.xCacheControl) "max-age" with
      | none => simp [hm]
      | some v =>
        cases v with
        | flag => simp [hm]
        | num j =>
          cases j with
          | nan =>
            cases hs : lookupA (parseCacheControl r.xCacheControl)
                "stale-while-revalidate" with
            | none => simp [hm, hs]
            | some w =>
              cases w with
              | flag => simp [hm, hs]
              | num k => simp [hm, hs, jsGt_nan_right]
          | int m =>
            unfold hasNumericMaxAge at hmal
            rw [hm] at hmal
            simp at hmal
    · have hage : getCacheAge now r = .nan := by simp [getCacheAge, hmal]
      cases hm : lookupA (parseCacheControl r.xCacheControl) "max-age" with
      | none => simp [hm]
      | some v =>
        cases v with
        | flag => simp [hm]
        | num j =>
          cases hs : lookupA (parseCacheControl r.xCacheControl)
              "stale-while-revalidate" with
          | none => simp [hm, hs]
          | some w =>
            cases w with
            | flag => simp [hm, hs]
            | num k => simp [hm, hs, hage, jsGt_nan_left]
  · simp [hfal]

/-- C6 amended. If the cached entry's metadata is malformed in the sense
the code actually detects — no non-`NaN` numeric `max-age` directive
(header absent, empty, unparsable, or missing the directive), or a
PRESENT-but-unparsable timestamp — `cachedFetch` treats the entry as a
MISS: it refetches synchronously and returns the upstream data. A MISSING
timestamp header, by contrast, yields age 0 and (with intact
cache-control) a HIT, per the counterexample. -/
theorem c6_malformed_metadata_is_miss {α : Type} (now : Int)
    (s : CacheState α) (query paramsJson : String) (options : CacheOptionsV)
    (d : α) (tg : Option (List String)) (r : StoredResponse α)
    (hk : lookupA s.entries
      (createCacheKey query paramsJson (options.keyPref.getD DEFAULT_CACHE_KEY_PREF))
      = some r)
    (hmal : hasNumericMaxAge r = false ∨ r.xCacheTime = some .nan) :
    cachedFetch true true true false now s query paramsJson (.ok (d, tg)) options
      = ⟨.ok ⟨d, .MISS, none⟩, 1,
          [.writeThrough
            (createCacheKey query paramsJson (options.keyPref.getD DEFAULT_CACHE_KEY_PREF))
            d tg
            (options.maxAge.getD DEFAULT_CACHE_MAX_AGE)
            (options.staleWhileRevalidate.getD DEFAULT_CACHE_SWR)]⟩ := by
  have hf := isFresh_false_of_malformed now r hmal
  have hs := isStaleButValid_false_of_malformed now r hmal
  simp [cachedFetch, cacheMatchEntry, hk, hf, hs]

/-- Witness for the amended C6: missing cache-control header → MISS. -/
theorem c6_malformed_metadata_witness :
    cachedFetch true true true false 10000 c6bState "Q" "pp"
        (.ok ((7 : Nat), none)) ⟨none, none, none⟩
      = ⟨.ok ⟨7, .MISS, none⟩, 1,
          [.writeThrough (createCacheKey "Q" "pp" "sanity") 7 none 86400 604800]⟩ :=
  c6_malformed_metadata_is_miss 10000 c6bState "Q" "pp" ⟨none, none, none⟩ 7 none
    c6bEntry (by decide) (Or.inl (by decide))

/-! ### Association-list and purge-loop lemmas -/

lemma lookupA_eraseA_self {β : Type} (l : List (String × β)) (k : String) :
    lookupA (eraseA l k) k = none := by
  induction l with
  | nil => rfl
  | cons kv rest ih =>
    obtain ⟨k', v⟩ := kv
    by_cases h : k' = k
    · simpa [eraseA, List.filter_cons, h] using ih
    · simpa [eraseA, List.filter_cons, h, lookupA] using ih

lemma lookupA_eraseA_ne {β : Type} (l : List (String × β)) {t u : String}
    (h : t ≠ u) : lookupA (eraseA l u) t = lookupA l t := by
  induction l with
  | nil => rfl
  | cons kv rest ih =>
    obtain ⟨k', v⟩ := kv
    simp only [eraseA, List.filter_cons] at ih ⊢
    by_cases hu : k' = u
    · subst hu
      simpa [lookupA, Ne.symm h] using ih
    · simp only [ne_eq, hu, not_false_eq_true, decide_True, if_true, lookupA]
      by_cases ht : k' = t
      · simp [ht]
      · simp only [ht, if_false]
        exact ih

lemma lookupA_eraseA_none {β : Type} (l : List (String × β)) {k : String}
    (u : String) (h : lookupA l k = none) : lookupA (eraseA l u) k = none := by
  by_cases he : k = u
  · subst he; exact lookupA_eraseA_self l k
  · rw [lookupA_eraseA_ne l he]; exact h

lemma lookupA_mem {β : Type} {l : List (String × β)} {t : String} {v : β}
    (h : lookupA l t = some v) : (t, v) ∈ l := by
  induction l with
  | nil => simp [lookupA] at h
  | cons kv rest ih =>
    obtain ⟨k', w⟩ := kv
    by_cases he : k' = t
    · subst he
      simp [lookupA] at h
      simp [h]
    · simp [lookupA, he] at h
      exact List.mem_cons_of_mem _ (ih h)

lemma pdk_entries_absent {α : Type} (urls : List String) (st : CacheState α)
    (purged : List String) (k : String) (h : lookupA st.entries k = none) :
    lookupA (purgeDeleteKeys st purged urls).1.entries k = none := by
  induction urls generalizing st purged with
  | nil => exact h
  | cons url rest ih =>
    simp only [purgeDeleteKeys, cacheDelete, Bool.false_eq_true, if_false]
    by_cases h1 : url = TAG_INDEX_URL
    · simp only [h1, if_true]
      exact ih _ _ h
    · by_cases h2 : url = PAGE_INDEX_URL
      · simp only [h1, h2, if_false, if_true]
        exact ih _ _ h
      · simp only [h1, h2, if_false]
        exact ih _ _ (lookupA_eraseA_none _ _ h)

lemma pdk_entries_deletes {α : Type} (urls : List String) (st : CacheState α)
    (purged : List String) (k : String) (hk : k ∈ urls)
    (h1 : k ≠ TAG_INDEX_URL) (h2 : k ≠ PAGE_INDEX_URL) :
    lookupA (purgeDeleteKeys st purged urls).1.entries k = none := by
  induction urls generalizing st purged with
  | nil => cases hk
  | cons url rest ih =>
    simp only [purgeDeleteKeys, cacheDelete, Bool.false_eq_true, if_false]
    rcases List.mem_cons.mp hk with he | hm
    · subst he
      simp only [h1, h2, if_false]
      exact pdk_entries_absent rest _ _ _ (lookupA_eraseA_self _ _)
    · by_cases hu1 : url = TAG_INDEX_URL
      · simp only [hu1, if_true]; exact ih _ _ hm
      · by_cases hu2 : url = PAGE_INDEX_URL
        · simp only [hu1, hu2, if_false, if_true]; exact ih _ _ hm
        · simp only [hu1, hu2, if_false]; exact ih _ _ hm

lemma pdk_entries_unrelated {α : Type} (urls : List String) (st : CacheState α)
    (purged : List String) (k : String) (hk : k ∉ urls) :
    lookupA (purgeDeleteKeys st purged urls).1.entries k = lookupA st.entries k := by
  induction urls generalizing st purged with
  | nil => rfl
  | cons url rest ih =>
    have hne : k ≠ url := fun he => hk (by simp [he])
    have hrest : k ∉ rest := fun hm => hk (List.mem_cons_of_mem _ hm)
    simp only [purgeDeleteKeys, cacheDelete, Bool.false_eq_true, if_false]
    by_cases h1 : url = TAG_INDEX_URL
    · simp only [h1, if_true]
      exact ih _ _ hrest
    · by_cases h2 : url = PAGE_INDEX_URL
      · simp only [h1, h2, if_false, if_true]
        exact ih _ _ hrest
      · simp only [h1, h2, if_false]
        rw [ih _ _ hrest]
        exact lookupA_eraseA_ne _ hne

lemma pdk_tagIndex {α : Type} (urls : List String) : ∀ (st : CacheState α)
    (purged : List String),
    (purgeDeleteKeys st purged urls).1.tagIndex = st.tagIndex
      ∨ (purgeDeleteKeys st purged urls).1.tagIndex = none := by
  induction urls with
  | nil => exact fun st purged => Or.inl rfl
  | cons url rest ih =>
    intro st purged
    simp only [purgeDeleteKeys, cacheDelete, Bool.false_eq_true, if_false]
    by_cases h1 : url = TAG_INDEX_URL
    · subst h1
      simp only [if_pos rfl]
      exact (ih _ _).elim Or.inr Or.inr
    · rw [if_neg h1]
      by_cases h2 : url = PAGE_INDEX_URL
      · subst h2
        rw [if_pos rfl]
        exact ih _ _
      · rw [if_neg h2]
        exact ih _ _

lemma pdk_pageIndex {α : Type} (urls : List String) : ∀ (st : CacheState α)
    (purged : List String),
    (purgeDeleteKeys st purged urls).1.pageIndex = st.pageIndex
      ∨ (purgeDeleteKeys st purged urls).1.pageIndex = none := by
  induction urls with
  | nil => exact fun st purged => Or.inl rfl
  | cons url rest ih =>
    intro st purged
    simp only [purgeDeleteKeys, cacheDelete, Bool.false_eq_true, if_false]
    by_cases h1 : url = TAG_INDEX_URL
    · subst h1
      simp only [if_pos rfl]
      exact ih _ _
    · rw [if_neg h1]
      by_cases h2 : url = PAGE_INDEX_URL
      · subst h2
        rw [if_pos rfl]
        exact (ih _ _).elim Or.inr Or.inr
      · rw [if_neg h2]
        exact ih _ _

lemma notin_of_eraseA {idx : TagIndexV} {k : String} (tag : String)
    (H : ∀ tg keys, lookupA idx tg = some keys → k ∉ keys) :
    ∀ tg keys, lookupA (eraseA idx tag) tg = some keys → k ∉ keys := by
  intro tg keys hl
  by_cases he : tg = tag
  · subst he
    rw [lookupA_eraseA_self] at hl
    exact absurd hl (by simp)
  · rw [lookupA_eraseA_ne _ he] at hl
    exact H tg keys hl

lemma ppl_entries_absent {α : Type} (tags : List String) :
    ∀ (idx : TagIndexV) (st : CacheState α) (purls : List String) (k : String),
    lookupA st.entries k = none →
    lookupA (purgePageLoop idx st purls tags).2.1.entries k = none := by
  induction tags with
  | nil => exact fun idx st purls k h => h
  | cons tag rest ih =>
    intro idx st purls k h
    simp only [purgePageLoop]
    cases hl : lookupA idx tag with
    | none => exact ih _ _ _ _ h
    | some urls => exact ih _ _ _ _ (pdk_entries_absent urls st purls k h)

lemma ppl_tagIndex_lookup_none {α : Type} (tags : List String) :
    ∀ (idx : TagIndexV) (st : CacheState α) (purls : List String) (t : String),
    lookupA (st.tagIndex.getD []) t = none →
    lookupA ((purgePageLoop idx st purls tags).2.1.tagIndex.getD []) t = none := by
  induction tags with
  | nil => exact fun idx st purls t h => h
  | cons tag rest ih =>
    intro idx st purls t h
    simp only [purgePageLoop]
    cases hl : lookupA idx tag with
    | none => exact ih _ _ _ _ h
    | some urls =>
      refine ih _ _ _ _ ?_
      rcases pdk_tagIndex urls st purls with hi | hi
      · rw [hi]; exact h
      · rw [hi]; rfl

lemma ppl_entries_unrelated {α : Type} (tags : List String) :
    ∀ (idx : TagIndexV) (st : CacheState α) (purls : List String) (k : String),
    (∀ tg keys, lookupA idx tg = some keys → k ∉ keys) →
    lookupA (purgePageLoop idx st purls tags).2.1.entries k = lookupA st.entries k := by
  induction tags with
  | nil => exact fun idx st purls k _ => rfl
  | cons tag rest ih =>
    intro idx st purls k H
    simp only [purgePageLoop]
    cases hl : lookupA idx tag with
    | none => exact ih _ _ _ _ H
    | some urls =>
      rw [ih _ _ _ _ (notin_of_eraseA tag H)]
      exact pdk_entries_unrelated urls st purls k (H tag urls hl)

lemma pql_entries_unrelated {α : Type} (tags : List String) :
    ∀ (idx : TagIndexV) (st : CacheState α) (ptags pkeys : List String) (k : String),
    (∀ tg keys, lookupA idx tg = some keys → k ∉ keys) →
    lookupA (purgeQueryLoop idx st ptags pkeys tags).2.1.entries k
      = lookupA st.entries k := by
  induction tags with
  | nil => exact fun idx st ptags pkeys k _ => rfl
  | cons tag rest ih =>
    intro idx st ptags pkeys k H
    simp only [purgeQueryLoop]
    cases hl : lookupA idx tag with
    | none => exact ih _ _ _ _ _ H
    | some keys =>
      rw [ih _ _ _ _ _ (notin_of_eraseA tag H)]
      exact pdk_entries_unrelated keys st pkeys k (H tag keys hl)

lemma pql_pageIndex {α : Type} (tags : List String) :
    ∀ (idx : TagIndexV) (st : CacheState α) (ptags pkeys : List String),
    (purgeQueryLoop idx st ptags pkeys tags).2.1.pageIndex = st.pageIndex
      ∨ (purgeQueryLoop idx st ptags pkeys tags).2.1.pageIndex = none := by
  induction tags with
  | nil => exact fun idx st ptags pkeys => Or.inl rfl
  | cons tag rest ih =>
    intro idx st ptags pkeys
    simp only [purgeQueryLoop]
    cases hl : lookupA idx tag with
    | none => exact ih _ _ _ _
    | some keys =>
      rcases pdk_pageIndex keys st pkeys with hi | hi
      · rcases ih (eraseA idx tag) (purgeDeleteKeys st pkeys keys).1 (ptags ++ [tag])
            (purgeDeleteKeys st pkeys keys).2 with h | h
        · exact Or.inl (h.trans hi)
        · exact Or.inr h
      · rcases ih (eraseA idx tag) (purgeDeleteKeys st pkeys keys).1 (ptags ++ [tag])
            (purgeDeleteKeys st pkeys keys).2 with h | h
        · exact Or.inr (h.trans hi)
        · exact Or.inr h

/-- Characterization of `purgeCacheByTags` on a single tag absent from the
query index. -/
lemma purge_single_qnone {α : Type} (s : CacheState α) (t : String)
    (hq : lookupA (s.tagIndex.getD []) t = none) :
    purgeCacheByTags true true false s [t]
      = (let s2 : CacheState α := { s with tagIndex := some (s.tagIndex.getD []) }
         let p := purgePageLoop (s2.pageIndex.getD []) s2 [] [t]
         (⟨[], p.2.2, []⟩, { p.2.1 with pageIndex := some p.1 })) := by
  simp only [purgeCacheByTags, Bool.not_true, Bool.false_eq_true, if_false,
    purgeQueryLoop, hq]

/-- Characterization of `purgeCacheByTags` on a single tag present in the
query index with key list `keys`. -/
lemma purge_single_qfound {α : Type} (s : CacheState α) (t : String)
    (keys : List String) (hq : lookupA (s.tagIndex.getD []) t = some keys) :
    purgeCacheByTags true true false s [t]
      = (let d := purgeDeleteKeys s [] keys
         let s2 : CacheState α :=
           { d.1 with tagIndex := some (eraseA (s.tagIndex.getD []) t) }
         let p := purgePageLoop (s2.pageIndex.getD []) s2 [] [t]
         (⟨d.2, p.2.2, [t]⟩, { p.2.1 with pageIndex := some p.1 })) := by
  simp only [purgeCacheByTags, Bool.not_true, Bool.false_eq_true, if_false,
    purgeQueryLoop, hq, List.nil_append]

/-- After the page loop runs on a single tag, the returned in-memory page
index no longer maps that tag. -/
lemma ppl_single_idx {α : Type} (pageIdx : TagIndexV) (st : CacheState α)
    (purls : List String) (t : String) :
    lookupA (purgePageLoop pageIdx st purls [t]).1 t = none := by
  cases hp : lookupA pageIdx t with
  | none => simp only [purgePageLoop, hp]
  | some urls => simp only [purgePageLoop, hp]; exact lookupA_eraseA_self _ _

/-- The page loop on a single tag absent from the page index is the
identity. -/
lemma ppl_single_none {α : Type} (pageIdx : TagIndexV) (st : CacheState α)
    (purls : List String) (t : String) (hp : lookupA pageIdx t = none) :
    purgePageLoop pageIdx st purls [t] = (pageIdx, st, purls) := by
  simp only [purgePageLoop, hp]

/-- C4. After `purgeCacheByTags [t]`: the stored tag index no longer
associates any key with `t` (and neither does the page index); every cache
entry whose key was listed under `t` has been deleted from the store
(provided, as is the case for keys ever registered, that none of them is a
reserved index URL); and a tag present in neither index is silently
ignored — empty result, entries untouched. -/
theorem c4_tag_purge_completeness {α : Type} (s : CacheState α) (t : String)
    (hres : ∀ k ∈ (lookupA (s.tagIndex.getD []) t).getD [],
      k ≠ TAG_INDEX_URL ∧ k ≠ PAGE_INDEX_URL) :
    lookupA (((purgeCacheByTags true true false s [t]).2.tagIndex).getD []) t = none
    ∧ lookupA (((purgeCacheByTags true true false s [t]).2.pageIndex).getD []) t = none
    ∧ (∀ k ∈ (lookupA (s.tagIndex.getD []) t).getD [],
        lookupA (purgeCacheByTags true true false s [t]).2.entries k = none)
    ∧ (lookupA (s.tagIndex.getD []) t = none →
        lookupA (s.pageIndex.getD []) t = none →
        (purgeCacheByTags true true false s [t]).1 = ⟨[], [], []⟩
        ∧ (purgeCacheByTags true true false s [t]).2.entries = s.entries) := by
  cases hq : lookupA (s.tagIndex.getD []) t with
  | none =>
    refine ⟨?_, ?_, ?_, fun hq' hp' => ?_⟩
    · simp only [purge_single_qnone s t hq]
      exact ppl_tagIndex_lookup_none [t] _ _ _ t hq
    · simp only [purge_single_qnone s t hq]
      exact ppl_single_idx _ _ _ t
    · intro k hk
      exact absurd hk (by simp)
    · simp only [purge_single_qnone s t hq]
      rw [ppl_single_none _ _ _ _ hp']
      exact ⟨rfl, rfl⟩
  | some keys =>
    have hres' : ∀ k ∈ keys, k ≠ TAG_INDEX_URL ∧ k ≠ PAGE_INDEX_URL := by
      intro k hk
      exact hres k (by rw [hq]; exact hk)
    refine ⟨?_, ?_, ?_, fun hq' hp' => ?_⟩
    · simp only [purge_single_qfound s t keys hq]
      exact ppl_tagIndex_lookup_none [t] _ _ _ t (lookupA_eraseA_self _ _)
    · simp only [purge_single_qfound s t keys hq]
      exact ppl_single_idx _ _ _ t
    · intro k hk
      simp only [Option.getD_some] at hk
      simp only [purge_single_qfound s t keys hq]
      exact ppl_entries_absent [t] _ _ _ k
        (pdk_entries_deletes keys s [] k hk (hres' k hk).1 (hres' k hk).2)
    · exact absurd hq' (by simp)

/-- C9 (implicit). A cache write by `cachedFetch` whose fetch returned no
tags (absent or empty list) leaves both indices untouched — on the
miss-path write-through and on the background revalidation alike — and
`purgeCacheByTags` never deletes an entry whose key is listed in neither
index (and is not a reserved index URL): such an entry survives every
purge unchanged. -/
theorem c9_untagged_entries_never_purged {α : Type} (now : Int) (url : String)
    (d : α) (m w : Int) (tags : Option (List String))
    (htags : tags = none ∨ tags = some []) :
    (∀ (fr : Except Unit (α × Option (List String))) (s : CacheState α),
      (runBgTask true true false now fr s (.writeThrough url d tags m w)).1.tagIndex
          = s.tagIndex
      ∧ (runBgTask true true false now fr s (.writeThrough url d tags m w)).1.pageIndex
          = s.pageIndex)
    ∧ (∀ s : CacheState α,
      (runBgTask true true false now (.ok (d, tags)) s (.revalidate url m w)).1.tagIndex
          = s.tagIndex
      ∧ (runBgTask true true false now (.ok (d, tags)) s (.revalidate url m w)).1.pageIndex
          = s.pageIndex)
    ∧ (∀ (s : CacheState α) (ptags : List String) (k : String),
        (s.tagIndex.getD []).all (fun p => decide (k ∉ p.2)) = true →
        (s.pageIndex.getD []).all (fun p => decide (k ∉ p.2)) = true →
        k ≠ TAG_INDEX_URL → k ≠ PAGE_INDEX_URL →
        lookupA (purgeCacheByTags true true false s ptags).2.entries k
          = lookupA s.entries k) := by
  refine ⟨?_, ?_, ?_⟩
  · rcases htags with h | h <;> subst h <;> exact fun fr s => ⟨rfl, rfl⟩
  · rcases htags with h | h <;> subst h <;> exact fun s => ⟨rfl, rfl⟩
  · intro s ptags k hq hp _ _
    have Hq : ∀ tg keys, lookupA (s.tagIndex.getD []) tg = some keys → k ∉ keys :=
      fun tg keys hl => of_decide_eq_true (List.all_eq_true.mp hq _ (lookupA_mem hl))
    have Hp : ∀ tg keys, lookupA (s.pageIndex.getD []) tg = some keys → k ∉ keys :=
      fun tg keys hl => of_decide_eq_true (List.all_eq_true.mp hp _ (lookupA_mem hl))
    have h1 := pql_entries_unrelated ptags (s.tagIndex.getD []) s [] [] k Hq
    have Hp2 : ∀ tg keys,
        lookupA ((purgeQueryLoop (s.tagIndex.getD []) s [] [] ptags).2.1.pageIndex.getD [])
          tg = some keys → k ∉ keys := by
      rcases pql_pageIndex ptags (s.tagIndex.getD []) s [] [] with hi | hi
      · rw [hi]; exact Hp
      · rw [hi]; intro tg keys hl; simp [lookupA] at hl
    simp only [purgeCacheByTags, Bool.not_true, Bool.false_eq_true, if_false]
    refine Eq.trans ?_ h1
    exact ppl_entries_unrelated ptags _ _ [] k Hp2

/-- Witness for C9: an untagged write leaves the indices alone, and a purge
of tag "t" leaves the unlisted entry "k" in place. -/
theorem c9_untagged_entries_never_purged_witness :
    (runBgTask true true false 0 (.ok ((5 : Nat), none)) c9State
        (.writeThrough "k" 5 none 60 300)).1.tagIndex = c9State.tagIndex
    ∧ (runBgTask true true false 0 (.ok ((5 : Nat), none)) c9State
        (.revalidate "k" 60 300)).1.tagIndex = c9State.tagIndex
    ∧ lookupA (purgeCacheByTags true true false c9State ["t"]).2.entries "k"
        = lookupA c9State.entries "k" :=
  ⟨((c9_untagged_entries_never_purged 0 "k" (5 : Nat) 60 300 none
      (Or.inl rfl)).1 (.ok (5, none)) c9State).1,
   ((c9_untagged_entries_never_purged 0 "k" (5 : Nat) 60 300 none
      (Or.inl rfl)).2.1 c9State).1,
   (c9_untagged_entries_never_purged 0 "k" (5 : Nat) 60 300 none
      (Or.inl rfl)).2.2 c9State ["t"] "k" (by decide) (by decide) (by decide)
      (by decide)⟩

/-- Counterexample to C5 as stated: tag "t" is found in the page-scope
index — its page URL is purged — yet `purgedTags` comes back EMPTY: the
page-purge loop never records tags, so a tag present only in the page
index is not reported. -/
theorem c5_page_only_tag_counterexample :
    (purgeCacheByTags true true false c5State ["t"]).1.purgedPageUrls
        = ["https://site/p"]
    ∧ (purgeCacheByTags true true false c5State ["t"]).1.purgedTags = [] := by
  decide

/-- The query-purge loop records exactly the requested tags found in the
query index (in request order), for duplicate-free requests. -/
lemma pql_purgedTags {α : Type} (tags : List String) :
    ∀ (idx : TagIndexV) (st : CacheState α) (ptags pkeys : List String),
    tags.Nodup →
    (purgeQueryLoop idx st ptags pkeys tags).2.2.1
      = ptags ++ tags.filter (fun t => (lookupA idx t).isSome) := by
  induction tags with
  | nil => intro idx st ptags pkeys _; simp [purgeQueryLoop]
  | cons tag rest ih =>
    intro idx st ptags pkeys hnd
    have hnd' : rest.Nodup := (List.nodup_cons.mp hnd).2
    have hmem : tag ∉ rest := (List.nodup_cons.mp hnd).1
    simp only [purgeQueryLoop]
    cases hl : lookupA idx tag with
    | none =>
      rw [ih _ _ _ _ hnd']
      simp [List.filter_cons, hl]
    | some keys =>
      rw [ih _ _ _ _ hnd']
      have hfeq : rest.filter (fun t => (lookupA (eraseA idx tag) t).isSome)
          = rest.filter (fun t => (lookupA idx t).isSome) := by
        apply List.filter_congr
        intro x hx
        have hxt : x ≠ tag := by
          intro he
          subst he
          exact hmem hx
        rw [lookupA_eraseA_ne idx hxt]
      rw [hfeq]
      simp [List.filter_cons, hl, List.append_assoc]

/-- C5 amended. For a duplicate-free request, `purgedTags` equals the
requested tags that were found in the QUERY-scope tag index, in request
order; tags found only in the page-scope index are NOT reported (see the
counterexample). -/
theorem c5_purgedTags_from_query_index_only {α : Type} (s : CacheState α)
    (tags : List String) (hnd : tags.Nodup) :
    (purgeCacheByTags true true false s tags).1.purgedTags
      = tags.filter (fun t => (lookupA (s.tagIndex.getD []) t).isSome) := by
  simp only [purgeCacheByTags, Bool.not_true, Bool.false_eq_true, if_false]
  exact (pql_purgedTags tags (s.tagIndex.getD []) s [] [] hnd).trans
    (List.nil_append _)

/-- Witness for the amended C5. -/
theorem c5_purgedTags_witness :
    (purgeCacheByTags true true false c5bState ["a", "b"]).1.purgedTags
      = ["a", "b"].filter (fun t => (lookupA (c5bState.tagIndex.getD []) t).isSome) :=
  c5_purgedTags_from_query_index_only c5bState ["a", "b"] (by decide)

/-- C7. The purge handler answers 405 to any non-POST method; 400 when the
body's `tags` field is missing/falsy or not an array; 200 with
`success: true` and empty purged lists when the array filters down to
nothing; and otherwise purges exactly the filtered (non-empty-string) tags
— invalid individual entries are filtered out, not rejected. -/
theorem c7_purge_handler_statuses {α : Type} (cachesDefined cacheDefault thr : Bool)
    (s : CacheState α) :
    (∀ (method : String) (body : Except Unit PurgeReqBody), method ≠ "POST" →
      (handlePurgeRequest cachesDefined cacheDefault thr s method body).1.status = 405)
    ∧ (∀ b : PurgeReqBody,
        jsTruthyJson b.tags = false ∨ isJsonArray b.tags = false →
      (handlePurgeRequest cachesDefined cacheDefault thr s "POST" (.ok b)).1.status = 400)
    ∧ (∀ (xs : List JsonVal) (evt : Option String), filterValidTags xs = [] →
      handlePurgeRequest cachesDefined cacheDefault thr s "POST"
          (.ok ⟨some (.jarr xs), evt⟩)
        = (⟨200, true, [], [], [], [], evt, none⟩, s))
    ∧ (∀ (xs : List JsonVal) (evt : Option String), filterValidTags xs ≠ [] →
      handlePurgeRequest cachesDefined cacheDefault thr s "POST"
          (.ok ⟨some (.jarr xs), evt⟩)
        = (⟨200, true,
            (purgeCacheByTags cachesDefined cacheDefault thr s
              (filterValidTags xs)).1.purgedQueryKeys,
            (purgeCacheByTags cachesDefined cacheDefault thr s
              (filterValidTags xs)).1.purgedQueryKeys,
            (purgeCacheByTags cachesDefined cacheDefault thr s
              (filterValidTags xs)).1.purgedPageUrls,
            (purgeCacheByTags cachesDefined cacheDefault thr s
              (filterValidTags xs)).1.purgedTags, evt, none⟩,
          (purgeCacheByTags cachesDefined cacheDefault thr s
            (filterValidTags xs)).2)) := by
  refine ⟨?_, ?_, ?_, ?_⟩
  · intro method body h
    unfold handlePurgeRequest
    rw [if_pos h]
  · intro b h
    rcases h with h | h <;> simp [handlePurgeRequest, h]
  · intro xs evt h
    simp [handlePurgeRequest, jsTruthyJson, isJsonArray, h]
  · intro xs evt h
    cases hf : filterValidTags xs with
    | nil => exact absurd hf h
    | cons x rest => simp [handlePurgeRequest, jsTruthyJson, isJsonArray, hf]

/-- Witness for C7: a GET is 405; `tags: null` is 400; `tags: [5, ""]`
filters to nothing and succeeds empty; `tags: [5, "a"]` purges `["a"]`. -/
theorem c7_purge_handler_witness :
    (handlePurgeRequest true true false c9State "GET"
      (.ok ⟨some (.jarr [.jstr "a"]), none⟩)).1.status = 405
    ∧ (handlePurgeRequest true true false c9State "POST"
      (.ok ⟨some .jnull, none⟩)).1.status = 400
    ∧ handlePurgeRequest true true false c9State "POST"
        (.ok ⟨some (.jarr [.jnum 5, .jstr ""]), some "e1"⟩)
      = (⟨200, true, [], [], [], [], some "e1", none⟩, c9State)
    ∧ handlePurgeRequest true true false c9State "POST"
        (.ok ⟨some (.jarr [.jnum 5, .jstr "a"]), some "e1"⟩)
      = (⟨200, true,
          (purgeCacheByTags true true false c9State ["a"]).1.purgedQueryKeys,
          (purgeCacheByTags true true false c9State ["a"]).1.purgedQueryKeys,
          (purgeCacheByTags true true false c9State ["a"]).1.purgedPageUrls,
          (purgeCacheByTags true true false c9State ["a"]).1.purgedTags,
          some "e1", none⟩,
        (purgeCacheByTags true true false c9State ["a"]).2) :=
  ⟨(c7_purge_handler_statuses true true false c9State).1 "GET" _ (by decide),
   (c7_purge_handler_statuses true true false c9State).2.1 ⟨some .jnull, none⟩
     (Or.inl rfl),
   (c7_purge_handler_statuses true true false c9State).2.2.1 [.jnum 5, .jstr ""]
     (some "e1") rfl,
   (c7_purge_handler_statuses true true false c9State).2.2.2 [.jnum 5, .jstr "a"]
     (some "e1") (by decide)⟩

/-- Setting page cache headers is a no-op once the per-request flag is up. -/
lemma spch_marked_noop (a : AstroCtx) (tags : List String) (o : PageCacheOptionsV)
    (h : hasPageCacheHeadersSet a.locals = true) :
    setPageCacheHeaders a tags o = a := by
  unfold setPageCacheHeaders
  cases hr : a.responseHeaders with
  | none => rfl
  | some hs => simp [h]

/-- Either `setPageCacheHeaders` changed nothing, or (when locals exist)
it left the per-request flag set. -/
lemma spch_noop_or_marked (a : AstroCtx) (tags : List String) (o : PageCacheOptionsV)
    (hl : a.locals.isSome = true) :
    setPageCacheHeaders a tags o = a
      ∨ hasPageCacheHeadersSet (setPageCacheHeaders a tags o).locals = true := by
  unfold setPageCacheHeaders
  cases hr : a.responseHeaders with
  | none => exact Or.inl rfl
  | some hs =>
    cases hset : hasPageCacheHeadersSet a.locals
    · by_cases hd : o.disabled = some true
      · simp [hset, hd]
      · by_cases hskip : shouldSkipPageCache a.urlPathname = true
        · simp [hset, hd, hskip]
        · rcases ho : a.locals with _ | l
          · rw [ho] at hl; simp at hl
          · right
            simp [hset, hd, hskip, markPageCacheHeadersSet, hasPageCacheHeadersSet, ho]
    · exact Or.inl (by simp [hset])

/-- C8. Setting page cache headers is a no-op (the whole Astro state, in
particular the response headers, is unchanged) when the `disabled` option
is set, when the request path is on the no-cache prefix list, or when the
headers were already set in this request; and with request locals present,
calling the header-setting path twice leaves the header values identical
to those after the first call. -/
theorem c8_page_headers_noop_and_idempotent (a : AstroCtx) (tags : List String)
    (o : PageCacheOptionsV) :
    (o.disabled = some true → setPageCacheHeaders a tags o = a)
    ∧ (shouldSkipPageCache a.urlPathname = true → setPageCacheHeaders a tags o = a)
    ∧ (hasPageCacheHeadersSet a.locals = true → setPageCacheHeaders a tags o = a)
    ∧ (a.locals.isSome = true →
        (setPageCacheHeaders (setPageCacheHeaders a tags o) tags o).responseHeaders
          = (setPageCacheHeaders a tags o).responseHeaders) := by
  refine ⟨?_, ?_, fun h => spch_marked_noop a tags o h, ?_⟩
  · intro h
    unfold setPageCacheHeaders
    cases hr : a.responseHeaders with
    | none => rfl
    | some hs =>
      cases hset : hasPageCacheHeadersSet a.locals
      · simp [hset, h]
      · simp [hset]
  · intro h
    unfold setPageCacheHeaders
    cases hr : a.responseHeaders with
    | none => rfl
    | some hs =>
      cases hset : hasPageCacheHeadersSet a.locals
      · by_cases hd : o.disabled = some true
        · simp [hset, hd]
        · simp [hset, hd, h]
      · simp [hset]
  · intro hl
    rcases spch_noop_or_marked a tags o hl with h | h
    · simp only [h]
    · rw [spch_marked_noop _ tags o h]

/-- Witness for C8: disabled option, no-cache route, already-set flag, and
the double call. -/
theorem c8_page_headers_witness :
    setPageCacheHeaders a8 ["x"] o8dis = a8
    ∧ setPageCacheHeaders a8skip ["x"] o8 = a8skip
    ∧ setPageCacheHeaders a8set ["x"] o8 = a8set
    ∧ (setPageCacheHeaders (setPageCacheHeaders a8 ["x"] o8) ["x"] o8).responseHeaders
        = (setPageCacheHeaders a8 ["x"] o8).responseHeaders :=
  ⟨(c8_page_headers_noop_and_idempotent a8 ["x"] o8dis).1 rfl,
   (c8_page_headers_noop_and_idempotent a8skip ["x"] o8).2.1 (by decide),
   (c8_page_headers_noop_and_idempotent a8set ["x"] o8).2.2.1 rfl,
   (c8_page_headers_noop_and_idempotent a8 ["x"] o8).2.2.2 rfl⟩

/-- C10 (implicit). On a request whose `lastLiveEventId` resolution
completes (it throws a `TypeError` only when `Astro.locals` is undefined
while the live-event cookie is set, a state 'recorded for the request'
never reaches): when visual editing is enabled, or the resolved
`lastLiveEventId` is truthy, or the per-call cache option is `false`,
`loadQuery` never reads the query cache — its whole outcome is
independent of the cache state — and it returns the upstream data with
`cacheStatus = BYPASS` (a status outside HIT/MISS/STALE). -/
theorem c10_bypass_skips_query_cache {β : Type} (cachesDefined cacheDefault thr : Bool)
    (now : Int) (tokenPresent : Bool) (initCache : Option CacheOptionsV)
    (initPageCache : Option PageCacheOptionsV) (a : AstroCtx)
    (query paramsJson : String) (cacheOption : CacheOpt)
    (pageCacheOption : PageCacheOpt) (upstream : Except Unit (SanityResponse β))
    (a1 : AstroCtx) (evt : Option String)
    (hres : resolveLiveEventId a = .ok (a1, evt))
    (h : isVisualEditingEnabled a = true
      ∨ jsTruthyOptStr evt = true
      ∨ cacheOption = .off) :
    (∀ s1 s2 : CacheState (SanityResponse β),
      loadQuery cachesDefined cacheDefault thr now tokenPresent initCache
          initPageCache s1 a query paramsJson cacheOption pageCacheOption upstream
        = loadQuery cachesDefined cacheDefault thr now tokenPresent initCache
          initPageCache s2 a query paramsJson cacheOption pageCacheOption upstream)
    ∧ (∀ (s : CacheState (SanityResponse β)) (r : SanityResponse β),
        upstream = .ok r →
        (loadQuery cachesDefined cacheDefault thr now tokenPresent initCache
            initPageCache s a query paramsJson cacheOption pageCacheOption
            upstream).result
          = .ok ⟨r.result,
              (if isVisualEditingEnabled a && tokenPresent then .drafts else .published),
              .BYPASS, none, r.syncTags⟩) := by
  have hsc : (!(isVisualEditingEnabled a) && !(jsTruthyOptStr evt)
      && !(cacheOption == CacheOpt.off)) = false := by
    rcases h with h | h | h <;> simp [h]
  constructor
  · intro s1 s2
    simp only [loadQuery, hres, hsc, Bool.false_eq_true, if_false]
  · intro s r hr
    subst hr
    simp only [loadQuery, hres, hsc, Bool.false_eq_true, if_false]

/-- Witness for C10: visual editing enabled (locals present, so the
event-id resolution completes) → BYPASS with upstream data. -/
theorem c10_bypass_witness :
    (loadQuery true true false 0 false none none
        (⟨[], none, none⟩ : CacheState (SanityResponse Nat)) c10Astro "Q" "pp"
        .unset .unset (.ok ⟨42, none⟩)).result
      = .ok ⟨42, .published, .BYPASS, none, none⟩ :=
  (c10_bypass_skips_query_cache true true false 0 false none none c10Astro "Q" "pp"
    .unset .unset (.ok ⟨42, none⟩) c10Astro none (by decide)
    (Or.inl (by decide))).2 ⟨[], none, none⟩ ⟨42, none⟩ rfl

/-- Witness for C4: purging tag "t" removes it from the index, deletes
entry "k1", and leaves the unrelated tag "u" and entry "k2" in place. -/
theorem c4_tag_purge_completeness_witness :
    lookupA (((purgeCacheByTags true true false c4State ["t"]).2.tagIndex).getD [])
        "t" = none
    ∧ lookupA (((purgeCacheByTags true true false c4State ["t"]).2.pageIndex).getD [])
        "t" = none
    ∧ (∀ k ∈ (lookupA (c4State.tagIndex.getD []) "t").getD [],
        lookupA (purgeCacheByTags true true false c4State ["t"]).2.entries k = none)
    ∧ (lookupA (c4State.tagIndex.getD []) "t" = none →
        lookupA (c4State.pageIndex.getD []) "t" = none →
        (purgeCacheByTags true true false c4State ["t"]).1 = ⟨[], [], []⟩
        ∧ (purgeCacheByTags true true false c4State ["t"]).2.entries
            = c4State.entries) :=
  c4_tag_purge_completeness c4State "t" (by decide)
